import Mathlib

/-!
Verification development for the stream-relay orchestration engine.
The definitions below are a shallow embedding of the JavaScript source
(the relay server), translated function by function: the telemetry
parser and bounded history, the input-status detector, the FFmpeg
argument-plan builder, and the worker-supervisor state transitions.
Wall-clock times are modelled as natural numbers, JavaScript numbers
appearing in parsed telemetry as rationals (with none standing for NaN),
and the mutable module state as explicit records threaded through the
transition functions.
-/

/-! ## JavaScript value helpers

Truthiness and the default-on-falsy idiom (x || d) of the source,
restricted to the value shapes that actually occur there. -/

/-- Truthiness of an optional number: null/undefined and 0 are falsy. -/
def truthyNum : Option Nat → Bool
  | some n => n ≠ 0
  | none => false

/-- Truthiness of an optional string: null/undefined and the empty string are falsy. -/
def truthyStr : Option String → Bool
  | some s => s ≠ ""
  | none => false

/-- The JavaScript idiom v || d on an optional number field. -/
def jsOrNat (v : Option Nat) (d : Nat) : Nat :=
  match v with
  | some n => if n = 0 then d else n
  | none => d

/-- The JavaScript idiom v || d on an optional string field. -/
def jsOrStr (v : Option String) (d : String) : String :=
  match v with
  | some s => if s = "" then d else s
  | none => d

/-- String concatenation with a possibly undefined value prints undefined in JavaScript. -/
def jsUndef : Option String → String
  | some s => s
  | none => "undefined"

/-- ASCII whitespace, modelling the character class of a whitespace regex escape. -/
def jsWhitespace (c : Char) : Bool :=
  c = ' ' || c = '\t' || c = '\n' || c = '\r' || c = '\x0b' || c = '\x0c'

/-- Characters matched by the digit-or-dot capture class of the progress regexes. -/
def digitDot (c : Char) : Bool :=
  c.isDigit || c = '.'

/-- String.trim of JavaScript: strip leading and trailing whitespace. -/
def jsTrim (s : String) : String :=
  ⟨((s.data.dropWhile jsWhitespace).reverse.dropWhile jsWhitespace).reverse⟩

/-- Numeric value of a list of decimal digit characters. -/
def digitsToNat (cs : List Char) : Nat :=
  cs.foldl (fun a c => a * 10 + (c.toNat - '0'.toNat)) 0

/-- parseFloat of JavaScript applied to a capture made of digits and dots:
the longest valid numeric prefix is decoded; none models NaN. -/
def jsParseFloat (cs : List Char) : Option ℚ :=
  let ip := cs.takeWhile Char.isDigit
  let rest := cs.drop ip.length
  let fp := match rest with
    | '.' :: r => r.takeWhile Char.isDigit
    | _ => []
  if ip.isEmpty && fp.isEmpty then none
  else some ((digitsToNat ip : ℚ) + (digitsToNat fp : ℚ) / (10 : ℚ) ^ fp.length)

/-- parseInt of JavaScript applied to a capture made of decimal digits. -/
def jsParseNat (cs : List Char) : Nat := digitsToNat cs

/-! ## Telemetry parsing (parseFFmpegOutput)

Each fixed field-label pattern of the source is realised as a matcher
that recognises the pattern at the head of a character list, plus a
scanner that tries every start position left to right, as a regex
search does. -/

/-- Match a literal character sequence and return the remainder. -/
def dropLit : List Char → List Char → Option (List Char)
  | [], cs => some cs
  | _ :: _, [] => none
  | p :: ps, c :: cs => if c = p then dropLit ps cs else none

/-- Try a matcher at every start position, leftmost match first. -/
def scanFor {α : Type} (f : List Char → Option α) : List Char → Option α
  | [] => f []
  | c :: cs =>
    match f (c :: cs) with
    | some x => some x
    | none => scanFor f cs

/-- Pattern bitrate= then whitespace then digits and dots then kbits/s, at the head. -/
def matchBitrateAt (cs : List Char) : Option (List Char) :=
  match dropLit "bitrate=".data cs with
  | none => none
  | some r1 =>
    let r2 := r1.dropWhile jsWhitespace
    let cap := r2.takeWhile digitDot
    if cap.isEmpty then none
    else
      match dropLit "kbits/s".data (r2.dropWhile digitDot) with
      | none => none
      | some _ => some cap

/-- Pattern fps= then whitespace then digits and dots, at the head. -/
def matchFpsAt (cs : List Char) : Option (List Char) :=
  match dropLit "fps=".data cs with
  | none => none
  | some r1 =>
    let r2 := r1.dropWhile jsWhitespace
    let cap := r2.takeWhile digitDot
    if cap.isEmpty then none else some cap

/-- Pattern speed= then whitespace then digits and dots then x, at the head. -/
def matchSpeedAt (cs : List Char) : Option (List Char) :=
  match dropLit "speed=".data cs with
  | none => none
  | some r1 =>
    let r2 := r1.dropWhile jsWhitespace
    let cap := r2.takeWhile digitDot
    if cap.isEmpty then none
    else
      match dropLit "x".data (r2.dropWhile digitDot) with
      | none => none
      | some _ => some cap

/-- Pattern frame= then whitespace then decimal digits, at the head. -/
def matchFrameAt (cs : List Char) : Option (List Char) :=
  match dropLit "frame=".data cs with
  | none => none
  | some r1 =>
    let r2 := r1.dropWhile jsWhitespace
    let cap := r2.takeWhile Char.isDigit
    if cap.isEmpty then none else some cap

/-- Pattern time= then digits, a colon, digits, a colon, digits and dots, at the head. -/
def matchTimeAt (cs : List Char) : Option (List Char × List Char × List Char) :=
  match dropLit "time=".data cs with
  | none => none
  | some r1 =>
    let h := r1.takeWhile Char.isDigit
    if h.isEmpty then none
    else
      match r1.dropWhile Char.isDigit with
      | ':' :: r2 =>
        let m := r2.takeWhile Char.isDigit
        if m.isEmpty then none
        else
          match r2.dropWhile Char.isDigit with
          | ':' :: r3 =>
            let s := r3.takeWhile digitDot
            if s.isEmpty then none else some (h, m, s)
          | _ => none
      | _ => none

/-- Structured result of parsing one diagnostic line. Outer none on a field
means the pattern did not match; an inner none models a NaN numeric value. -/
structure FFStats where
  bitrate : Option (Option ℚ)
  fps : Option (Option ℚ)
  speed : Option (Option ℚ)
  frame : Option Nat
  time : Option (Option ℚ)
deriving DecidableEq, Repr

/-- parseFFmpegOutput of the source: extract the five optional fields and
return null when none of the patterns matched. -/
def parseFFmpegOutput (line : String) : Option FFStats :=
  let cs := line.data
  let bitrate := (scanFor matchBitrateAt cs).map jsParseFloat
  let fps := (scanFor matchFpsAt cs).map jsParseFloat
  let speed := (scanFor matchSpeedAt cs).map jsParseFloat
  let frame := (scanFor matchFrameAt cs).map jsParseNat
  let time := (scanFor matchTimeAt cs).map (fun t =>
    match jsParseFloat t.2.2 with
    | none => none
    | some secs => some ((jsParseNat t.1 : ℚ) * 3600 + (jsParseNat t.2.1 : ℚ) * 60 + secs))
  if bitrate.isNone && fps.isNone && speed.isNone && frame.isNone && time.isNone then none
  else some ⟨bitrate, fps, speed, frame, time⟩

/-! ## Telemetry store (platformStats, updatePlatformStats) -/

/-- One entry pushed onto the bounded history. -/
structure StatsSample where
  timestamp : Nat
  bitrate : Option ℚ
  fps : Option (Option ℚ)
  speed : Option (Option ℚ)
deriving DecidableEq, Repr

/-- Per-destination telemetry record held in the platformStats map. -/
structure PlatformData where
  history : List StatsSample
  current : Option (FFStats × Nat)
  platformName : Option String
  ended : Bool
  endTime : Option Nat
deriving DecidableEq, Repr

/-- The platformStats map, destination identifier to telemetry record. -/
abbrev StatsMap := String → Option PlatformData

/-- The empty platformStats map. -/
def emptyStats : StatsMap := fun _ => none

/-- Overwrite one key of the platformStats map. -/
def statsSet (m : StatsMap) (k : String) (v : PlatformData) : StatsMap :=
  fun x => if x = k then some v else m x

/-- Capacity bound of the history: one hour of per-second samples. -/
def MAX_STATS_HISTORY : Nat := 3600

/-- Trim step of the source: when the history exceeds the bound, keep the
most recent MAX_STATS_HISTORY entries (slice from the end). -/
def trimHist (h : List StatsSample) : List StatsSample :=
  if MAX_STATS_HISTORY < h.length then h.drop (h.length - MAX_STATS_HISTORY) else h

/-- updatePlatformStats of the source: create the entry when missing,
overwrite the current slot, and append to the history only when the parse
carried a bitrate field, trimming to the bound. -/
def updatePlatformStats (m : StatsMap) (platformId : String) (stats : FFStats) (now : Nat) :
    StatsMap :=
  let platformData :=
    match m platformId with
    | some d => d
    | none => { history := [], current := none, platformName := none, ended := false, endTime := none }
  let withCur := { platformData with current := some (stats, now) }
  let d :=
    match stats.bitrate with
    | some b =>
      { withCur with
        history := trimHist (withCur.history ++
          [{ timestamp := now, bitrate := b, fps := stats.fps, speed := stats.speed }]) }
    | none => withCur
  statsSet m platformId d

/-- The stderr data handler of the relay-start loop: trim the chunk, skip it
when empty, parse it, and update the stats of that destination when the parse
yielded at least one field. -/
def ingestLine (m : StatsMap) (platformId : String) (chunk : String) (now : Nat) : StatsMap :=
  let msg := jsTrim chunk
  if msg = "" then m
  else
    match parseFFmpegOutput msg with
    | some stats => updatePlatformStats m platformId stats now
    | none => m

/-- Fold a sequence of ingest events (destination, chunk, time) over the map. -/
def ingestAll (m : StatsMap) (evs : List (String × String × Nat)) : StatsMap :=
  evs.foldl (fun acc ev => ingestLine acc ev.1 ev.2.1 ev.2.2) m

/-- History of one destination, empty when the entry is absent. -/
def histOf (m : StatsMap) (id : String) : List StatsSample :=
  match m id with
  | some d => d.history
  | none => []

/-- Current slot of one destination, empty when the entry is absent. -/
def curOf (m : StatsMap) (id : String) : Option (FFStats × Nat) :=
  match m id with
  | some d => d.current
  | none => none

/-- The sample an ingest event appends for a given destination, when any. -/
def evSample (id : String) (ev : String × String × Nat) : Option StatsSample :=
  if ev.1 = id then
    let msg := jsTrim ev.2.1
    if msg = "" then none
    else
      match parseFFmpegOutput msg with
      | some s =>
        match s.bitrate with
        | some b => some { timestamp := ev.2.2, bitrate := b, fps := s.fps, speed := s.speed }
        | none => none
      | none => none
  else none

/-- All samples a sequence of ingest events appends for a given destination. -/
def appendedSamples (id : String) (evs : List (String × String × Nat)) : List StatsSample :=
  evs.filterMap (evSample id)

/-- The most recent n elements of a list. -/
def lastN (n : Nat) (l : List StatsSample) : List StatsSample :=
  l.drop (l.length - n)

/-! ## Input detector (checkInputStatus)

The external status poll is modelled as an input value: either the fetch
threw, or the response was non-success, or it delivered a parsed items
list. The continuity timestamp inputStartTime is threaded explicitly. -/

/-- One path entry of the media-server status listing. -/
structure PathItem where
  name : String
  ready : Bool
  sourceType : Option String
deriving DecidableEq, Repr

/-- Outcome of the status poll as seen by checkInputStatus. -/
inductive MtxPoll where
  | fetchError
  | notOk
  | okJson (items : Option (List PathItem))
deriving DecidableEq, Repr

/-- The result object returned by checkInputStatus. -/
structure InputStatus where
  available : Bool
  protocol : Option String
  startTime : Option Nat
deriving DecidableEq, Repr

/-- Truthiness of the stored continuity timestamp (null and 0 are falsy). -/
def truthyTime : Option Nat → Bool
  | some t => t ≠ 0
  | none => false

/-- checkInputStatus of the source: given the stored continuity timestamp,
the poll outcome and the current time, return the updated timestamp and
the status object. A thrown fetch is caught and reports unavailable with
the stored timestamp left untouched; a non-success response or a missing
or not-ready path clears a truthy timestamp; a ready path sets the
timestamp to now when it is not already set. -/
def checkInputStatus (ist : Option Nat) (poll : MtxPoll) (now : Nat) :
    Option Nat × InputStatus :=
  match poll with
  | .fetchError => (ist, ⟨false, none, none⟩)
  | .notOk => (if truthyTime ist then none else ist, ⟨false, none, none⟩)
  | .okJson items =>
    match (items.getD []).find? (fun it => it.name = "live/stream") with
    | none => (if truthyTime ist then none else ist, ⟨false, none, none⟩)
    | some streamPath =>
      if !streamPath.ready then
        (if truthyTime ist then none else ist, ⟨false, none, none⟩)
      else
        let protocol :=
          if streamPath.sourceType = some "srtConn" then some "srt"
          else if streamPath.sourceType = some "rtmpConn" then some "rtmp"
          else none
        let ist' := if truthyTime ist then ist else some now
        (ist', ⟨true, protocol, ist'⟩)

/-- Run a sequence of polls, keeping only the continuity timestamp. -/
def runPolls (ist : Option Nat) (polls : List (MtxPoll × Nat)) : Option Nat :=
  polls.foldl (fun s p => (checkInputStatus s p.1 p.2).1) ist

/-- A poll answer with the named path present and ready over RTMP. -/
def readyPoll : MtxPoll :=
  .okJson (some [{ name := "live/stream", ready := true, sourceType := some "rtmpConn" }])

/-! ## Destination records and the argument-plan builder (buildFFmpegArgs) -/

/-- Protocol-specific delivery parameters of a destination. -/
structure SrtSettings where
  latency : Option Nat
  passphrase : Option String
  mode : Option String
deriving DecidableEq, Repr

/-- Optional encoding configuration of a destination. -/
structure Encoding where
  usePassthrough : Option Bool
  bitrate : Option Nat
  maxBitrate : Option Nat
  bufsize : Option Nat
  audioBitrate : Option Nat
  preset : Option String
  framerate : Option Nat
  cbr : Option Bool
  rcLookahead : Option Nat
  keyframeInterval : Option Nat
  profile : Option String
  resolution : Option String
deriving DecidableEq, Repr

/-- A destination record as fetched from the dashboard. -/
structure Platform where
  id : String
  name : String
  rtmpUrl : String
  streamKey : Option String
  srtSettings : Option SrtSettings
  encoding : Option Encoding
deriving DecidableEq, Repr

/-- Whether the first string starts with the second. -/
def strStartsWith (s p : String) : Bool :=
  p.data.isPrefixOf s.data

/-- Whether the output endpoint of the destination is pull/connect style. -/
def isSrtOutput (p : Platform) : Bool :=
  strStartsWith p.rtmpUrl "srt://"

/-- The query parameters assembled for a pull/connect-style output, in the
order the source sets them; fixed defaults when no settings are supplied. -/
def srtParamsOf (p : Platform) : List (String × String) :=
  (if truthyStr p.streamKey then [("streamid", p.streamKey.getD "")] else [])
  ++ (match p.srtSettings with
      | some s =>
        (if truthyNum s.latency then [("latency", toString (s.latency.getD 0 * 1000))] else [])
        ++ (if truthyStr s.passphrase then [("passphrase", s.passphrase.getD "")] else [])
        ++ (if truthyStr s.mode then [("mode", s.mode.getD "")] else [])
      | none => [("latency", "200000"), ("mode", "caller")])

/-- Serialise the query parameters (percent-encoding elided). -/
def queryOf (ps : List (String × String)) : String :=
  String.intercalate "&" (ps.map fun kv => kv.1 ++ "=" ++ kv.2)

/-- The constructed output target: query parameters appended for
pull/connect style, stream key appended to the path for push style. -/
def outputUrlOf (p : Platform) : String :=
  if isSrtOutput p then p.rtmpUrl ++ "?" ++ queryOf (srtParamsOf p)
  else p.rtmpUrl ++ "/" ++ jsUndef p.streamKey

/-- The second output-target binding of the source; it coincides with the
first in both branches. -/
def fullRtmpUrlOf (p : Platform) : String :=
  if isSrtOutput p then outputUrlOf p
  else p.rtmpUrl ++ "/" ++ jsUndef p.streamKey

/-- Derived encode parameter: target bitrate with its default. -/
def encBitrate (enc : Encoding) : Nat := jsOrNat enc.bitrate 4500

/-- Derived encode parameter: peak bitrate, defaulting to the target. -/
def encMaxBitrate (enc : Encoding) : Nat := jsOrNat enc.maxBitrate (encBitrate enc)

/-- Derived encode parameter: buffer size, defaulting to the target bitrate. -/
def encBufsize (enc : Encoding) : Nat := jsOrNat enc.bufsize (encBitrate enc)

/-- Derived encode parameter: audio bitrate with its default. -/
def encAudioBitrate (enc : Encoding) : Nat := jsOrNat enc.audioBitrate 160

/-- Derived encode parameter: the requested speed preset with its default. -/
def encCpuPreset (enc : Encoding) : String := jsOrStr enc.preset "veryfast"

/-- Derived encode parameter: frame rate with its default. -/
def encFramerate (enc : Encoding) : Nat := jsOrNat enc.framerate 60

/-- Derived encode parameter: constant bitrate unless explicitly disabled. -/
def encUseCbr (enc : Encoding) : Bool := enc.cbr ≠ some false

/-- Derived encode parameter: look-ahead, defaulting to one second of frames. -/
def encRcLookahead (enc : Encoding) : Nat := jsOrNat enc.rcLookahead (encFramerate enc)

/-- Derived encode parameter: keyframe interval in seconds with its default. -/
def encKeyframeIntervalSec (enc : Encoding) : Nat := jsOrNat enc.keyframeInterval 2

/-- Derived encode parameter: group-of-pictures size in frames. -/
def encGopSize (enc : Encoding) : Nat := encKeyframeIntervalSec enc * encFramerate enc

/-- Derived encode parameter: output profile with its default. -/
def encProfile (enc : Encoding) : String := jsOrStr enc.profile "high"

/-- The fixed preset translation table of the source, in source order. -/
def nvencPresetMap : List (String × String) :=
  [("ultrafast", "p1"), ("superfast", "p2"), ("veryfast", "p3"), ("faster", "p4"),
   ("fast", "p5"), ("medium", "p5"), ("slow", "p6"), ("slower", "p7")]

/-- The translated hardware preset: table lookup with the mid-level default. -/
def nvencPresetOf (enc : Encoding) : String :=
  (nvencPresetMap.lookup (encCpuPreset enc)).getD "p4"

/-- The seven hardware preset levels, as listed by the translation table. -/
def nvencLevels : List String := (nvencPresetMap.map Prod.snd).dedup

/-- The hardware-path encode directives pushed by the source. -/
def nvencArgs (enc : Encoding) : List String :=
  ["-c:v", "h264_nvenc",
   "-preset", nvencPresetOf enc,
   "-tune", "ll",
   "-rc", "cbr",
   "-b:v", toString (encBitrate enc) ++ "k",
   "-maxrate", toString (encMaxBitrate enc) ++ "k",
   "-bufsize", toString (encBufsize enc) ++ "k",
   "-g", toString (encGopSize enc),
   "-keyint_min", toString (encGopSize enc),
   "-profile:v", encProfile enc,
   "-rc-lookahead", toString (min (encRcLookahead enc) 32),
   "-c:a", "aac",
   "-b:a", toString (encAudioBitrate enc) ++ "k",
   "-ar", "48000"]
  ++ (if truthyStr enc.resolution then ["-vf", "scale_cuda=" ++ enc.resolution.getD ""] else [])

/-- The software-path encode directives pushed by the source. -/
def x264Args (enc : Encoding) : List String :=
  ["-c:v", "libx264",
   "-preset", encCpuPreset enc,
   "-b:v", toString (encBitrate enc) ++ "k",
   "-maxrate", toString (encMaxBitrate enc) ++ "k",
   "-bufsize", toString (encBufsize enc) ++ "k",
   "-g", toString (encGopSize enc),
   "-keyint_min", toString (encGopSize enc),
   "-profile:v", encProfile enc,
   "-bf", "2"]
  ++ (if encUseCbr enc then
        ["-x264-params", "nal-hrd=cbr:force-cfr=1:rc-lookahead=" ++
          toString (min (encRcLookahead enc) 60)]
      else if 0 < encRcLookahead enc then
        ["-x264-params", "rc-lookahead=" ++ toString (min (encRcLookahead enc) 60)]
      else [])
  ++ ["-c:a", "aac",
      "-b:a", toString (encAudioBitrate enc) ++ "k",
      "-ar", "48000"]
  ++ (if truthyStr enc.resolution then ["-vf", "scale=" ++ enc.resolution.getD ""] else [])

/-- The leading arguments: fixed flags, the hardware-acceleration input
flags when the hardware encoder is selected, and the input argument. -/
def preArgs (inputUrl : String) (useNvenc : Bool) : List String :=
  ["-hide_banner", "-loglevel", "info", "-stats"]
  ++ (if useNvenc then ["-hwaccel", "cuda", "-hwaccel_output_format", "cuda"] else [])
  ++ ["-i", inputUrl]

/-- The middle block: encode directives when a non-passthrough configuration
is present, the stream-copy directive otherwise. -/
def encodeArgs (p : Platform) (useNvenc : Bool) : List String :=
  match p.encoding with
  | some enc =>
    if enc.usePassthrough = some true then ["-c", "copy"]
    else if useNvenc then nvencArgs enc else x264Args enc
  | none => ["-c", "copy"]

/-- The trailing output-format directive and output target. -/
def outputArgs (p : Platform) : List String :=
  if isSrtOutput p then ["-f", "mpegts", outputUrlOf p]
  else ["-f", "flv", fullRtmpUrlOf p]

/-- buildFFmpegArgs of the source, as the concatenation of the argument
segments pushed in source order. -/
def buildFFmpegArgs (p : Platform) (inputUrl : String) (useNvenc : Bool) : List String :=
  preArgs inputUrl useNvenc ++ encodeArgs p useNvenc ++ outputArgs p

/-- Whether the configuration of the destination is passthrough or absent. -/
def isPassthrough (p : Platform) : Bool :=
  match p.encoding with
  | some enc => enc.usePassthrough = some true
  | none => true

/-! ## Worker supervisor (relayProcesses, close and error handlers, startAll)

The Map of running workers is an insertion-ordered association list with
unique keys; relayActive and streamStartTime are the relay-wide flags. -/

/-- One worker handle as stored by the source: process, display name,
declared output endpoint and creation time. -/
structure RelayProc where
  pid : Nat
  platform : String
  rtmpUrl : String
  startTime : Nat
deriving DecidableEq, Repr

/-- The relayProcesses map, insertion ordered. -/
abbrev ProcMap := List (String × RelayProc)

/-- Map.delete of JavaScript: drop the entry with the given key. -/
def mapDelete (m : ProcMap) (k : String) : ProcMap :=
  m.filter (fun e => e.1 ≠ k)

/-- Map.set of JavaScript: overwrite in place, or append a new entry. -/
def mapSet (m : ProcMap) (k : String) (v : RelayProc) : ProcMap :=
  match m with
  | [] => [(k, v)]
  | e :: es => if e.1 = k then (k, v) :: es else e :: mapSet es k v

/-- Map.get of JavaScript: the value stored under the key, when any. -/
def mapGet (m : ProcMap) (k : String) : Option RelayProc :=
  match m with
  | [] => none
  | e :: es => if e.1 = k then some e.2 else mapGet es k

/-- The mutable module state the supervisor owns. -/
structure RelayState where
  relayProcesses : ProcMap
  platformStats : StatsMap
  relayActive : Bool
  streamStartTime : Option Nat

/-- The close handler registered by the relay-start loop: remove the handle,
mark the telemetry of that destination as ended with an end time, and when
the last worker is gone clear the relay-wide flag and start time. -/
def closeHandlerStartAll (st : RelayState) (id : String) (now : Nat) : RelayState :=
  let procs := mapDelete st.relayProcesses id
  let stats :=
    match st.platformStats id with
    | some d => statsSet st.platformStats id { d with ended := true, endTime := some now }
    | none => st.platformStats
  if procs.length = 0 then
    { relayProcesses := procs, platformStats := stats, relayActive := false,
      streamStartTime := none }
  else
    { st with relayProcesses := procs, platformStats := stats }

/-- The close handler registered by the single-destination start route:
remove the handle and clear the relay-wide flags when the last worker is
gone; the telemetry of the destination is not touched. -/
def closeHandlerStartOne (st : RelayState) (id : String) : RelayState :=
  let procs := mapDelete st.relayProcesses id
  if procs.length = 0 then
    { st with relayProcesses := procs, relayActive := false, streamStartTime := none }
  else
    { st with relayProcesses := procs }

/-- The close handler registered by the restart route; its body is verbatim
the body of the single-destination start close handler. -/
def closeHandlerRestartOne (st : RelayState) (id : String) : RelayState :=
  closeHandlerStartOne st id

/-- The error handler registered at spawn time: it only logs and leaves
every piece of state untouched. -/
def errorHandler (st : RelayState) : RelayState := st

/-- The per-destination body of the relay-start loop: initialise the
telemetry entry, spawn, register the handlers and store the handle. -/
def startAllStep (st : RelayState) (pidFn : String → Nat) (now : Nat) (p : Platform) :
    RelayState :=
  let st1 := { st with
    platformStats := statsSet st.platformStats p.id
      { history := [], current := none, platformName := some p.name,
        ended := false, endTime := none } }
  { st1 with
    relayProcesses := mapSet st1.relayProcesses p.id
      { pid := pidFn p.id, platform := p.name, rtmpUrl := p.rtmpUrl, startTime := now } }

/-- The event sequence a spawn failure produces for one destination of the
relay-start loop: the handle is stored synchronously, the error event only
logs, and the close event that follows a failed spawn removes the handle. -/
def spawnFailureStartAll (st : RelayState) (p : Platform) (pidFn : String → Nat) (now : Nat) :
    RelayState :=
  closeHandlerStartAll (errorHandler (startAllStep st pidFn now p)) p.id now

/-- stopAllRelays of the source: signal every worker, clear the map and the
relay-wide flags. -/
def stopAllRelays (st : RelayState) : RelayState :=
  { st with relayProcesses := [], relayActive := false, streamStartTime := none }

/-- Outcome of the fetch of the destination list. -/
inductive PlatformsFetch where
  | fetchError
  | notOk
  | okJson (platforms : Option (List Platform))

/-- The response the relay-start route sends. -/
inductive StartAllResult where
  | errorResp (code : Nat)
  | started (names : List String)
deriving DecidableEq, Repr

/-- The relay-start route: report a 500 error when the destination fetch
threw or was non-success, a 400 error when no enabled destination exists —
both before any worker is stopped or started — and otherwise stop all
existing workers, spawn one worker per destination and set the flags. -/
def startAll (st : RelayState) (fetch : PlatformsFetch) (pidFn : String → Nat) (now : Nat) :
    RelayState × StartAllResult :=
  match fetch with
  | .fetchError => (st, .errorResp 500)
  | .notOk => (st, .errorResp 500)
  | .okJson ps =>
    match ps with
    | none => (st, .errorResp 400)
    | some platforms =>
      if platforms.length = 0 then (st, .errorResp 400)
      else
        let st1 := stopAllRelays st
        let st2 := platforms.foldl (fun acc p => startAllStep acc pidFn now p) st1
        ({ st2 with relayActive := true, streamStartTime := some now },
         .started (platforms.map Platform.name))

/-! ## Association-list map lemmas -/

/-- Reading the deleted key yields nothing. -/
theorem mapGet_mapDelete_self (m : ProcMap) (k : String) :
    mapGet (mapDelete m k) k = none := by
  induction m with
  | nil => rfl
  | cons e es ih =>
    by_cases h : e.1 = k
    · simpa [mapDelete, List.filter_cons, h] using ih
    · simpa [mapDelete, List.filter_cons, h, mapGet] using ih

/-- Deleting one key leaves every other read unchanged. -/
theorem mapGet_mapDelete_ne (m : ProcMap) (k k' : String) (h : k' ≠ k) :
    mapGet (mapDelete m k) k' = mapGet m k' := by
  induction m with
  | nil => rfl
  | cons e es ih =>
    by_cases he : e.1 = k
    · simpa [mapDelete, List.filter_cons, he, mapGet, h, Ne.symm h] using ih
    · by_cases hk : e.1 = k'
      · simp [mapDelete, List.filter_cons, he, mapGet, hk, h, Ne.symm h]
      · simpa [mapDelete, List.filter_cons, he, mapGet, hk, h, Ne.symm h] using ih

/-- Overwriting one key leaves every other read unchanged. -/
theorem mapGet_mapSet_ne (m : ProcMap) (k k' : String) (v : RelayProc) (h : k' ≠ k) :
    mapGet (mapSet m k v) k' = mapGet m k' := by
  induction m with
  | nil => simp [mapSet, mapGet, Ne.symm h]
  | cons e es ih =>
    by_cases he : e.1 = k
    · simp [mapSet, he, mapGet, h, Ne.symm h]
    · by_cases hk : e.1 = k'
      · simp [mapSet, he, mapGet, hk, h, Ne.symm h]
      · simpa [mapSet, he, mapGet, hk, h, Ne.symm h] using ih

/-! ## Claim C1: input continuity timestamp -/

/-- C1. The claim states the continuity timestamp is cleared on any poll
that reports unavailable, including a poll failing by network error. At the
concrete input of a stored timestamp 1 and a network-error poll, the poll
reports unavailable yet the stored timestamp survives untouched, because
the catch path of checkInputStatus returns before touching it: the claim
as stated is false. -/
theorem C1_continuity_cex :
    (checkInputStatus (some 1) MtxPoll.fetchError 5).2.available = false
    ∧ (checkInputStatus (some 1) MtxPoll.fetchError 5).1 = some 1
    ∧ some 1 ≠ (none : Option Nat) := by decide

/-- C1 amended. A poll failing by network error reports unavailable and
leaves the continuity timestamp unchanged; a poll answered with a
non-success response, or with the named path missing or not ready, reports
unavailable and clears the timestamp; a ready poll sets the timestamp to
now exactly at a transition from unset and leaves it unchanged while input
stays continuously available; the [unavailable, available, available,
unavailable, available] trace at t=0..4 (with non-error unavailable polls)
yields timestamp 1 at t=2, cleared at t=3, and 4 at t=4. -/
theorem C1_continuity_amended :
    (∀ ist now, checkInputStatus ist MtxPoll.fetchError now = (ist, ⟨false, none, none⟩))
    ∧ (∀ t now, 0 < t →
        (checkInputStatus (some t) MtxPoll.notOk now).1 = none
        ∧ (checkInputStatus (some t) MtxPoll.notOk now).2 = ⟨false, none, none⟩)
    ∧ (∀ t now items, 0 < t →
        (items.getD []).find? (fun it => it.name = "live/stream") = none →
        (checkInputStatus (some t) (MtxPoll.okJson items) now).1 = none)
    ∧ (∀ t now items it, 0 < t →
        (items.getD []).find? (fun i => i.name = "live/stream") = some it →
        it.ready = false →
        (checkInputStatus (some t) (MtxPoll.okJson items) now).1 = none)
    ∧ (∀ now items it,
        (items.getD []).find? (fun i => i.name = "live/stream") = some it →
        it.ready = true →
        (checkInputStatus none (MtxPoll.okJson items) now).1 = some now
        ∧ (checkInputStatus none (MtxPoll.okJson items) now).2.available = true
        ∧ (checkInputStatus none (MtxPoll.okJson items) now).2.startTime = some now)
    ∧ (∀ t now items it, 0 < t →
        (items.getD []).find? (fun i => i.name = "live/stream") = some it →
        it.ready = true →
        (checkInputStatus (some t) (MtxPoll.okJson items) now).1 = some t
        ∧ (checkInputStatus (some t) (MtxPoll.okJson items) now).2.startTime = some t)
    ∧ (runPolls none [(MtxPoll.notOk, 0), (readyPoll, 1), (readyPoll, 2)] = some 1
       ∧ runPolls none [(MtxPoll.notOk, 0), (readyPoll, 1), (readyPoll, 2),
           (MtxPoll.notOk, 3)] = none
       ∧ runPolls none [(MtxPoll.notOk, 0), (readyPoll, 1), (readyPoll, 2),
           (MtxPoll.notOk, 3), (readyPoll, 4)] = some 4) := by
  refine ⟨fun ist now => rfl, ?_, ?_, ?_, ?_, ?_, by decide⟩
  · intro t now ht
    simp [checkInputStatus, truthyTime, Nat.pos_iff_ne_zero.mp ht]
  · intro t now items ht hfind
    simp [checkInputStatus, hfind, truthyTime, Nat.pos_iff_ne_zero.mp ht]
  · intro t now items it ht hfind hready
    simp [checkInputStatus, hfind, hready, truthyTime, Nat.pos_iff_ne_zero.mp ht]
  · intro now items it hfind hready
    simp [checkInputStatus, hfind, hready, truthyTime]
  · intro t now items it ht hfind hready
    simp [checkInputStatus, hfind, hready, truthyTime, Nat.pos_iff_ne_zero.mp ht]

/-- C1 amended witness: a non-success poll at stored timestamp 1 clears it. -/
theorem C1_continuity_amended_w :
    (checkInputStatus (some 1) MtxPoll.notOk 7).1 = none :=
  (C1_continuity_amended.2.1 1 7 (by decide)).1

/-! ## Claim C2: reaction to an unexpected worker exit -/

/-- A concrete telemetry entry used by the concrete supervisor states. -/
def cexStatsEntry : PlatformData :=
  { history := [], current := none, platformName := some "Alpha", ended := false, endTime := none }

/-- A concrete worker handle used by the concrete supervisor states. -/
def cexProc : RelayProc :=
  { pid := 41, platform := "Alpha", rtmpUrl := "rtmp://a.example/app", startTime := 0 }

/-- A concrete supervisor state with one running worker and a live
telemetry series for it. -/
def cexState : RelayState :=
  { relayProcesses := [("a", cexProc)],
    platformStats := statsSet emptyStats "a" cexStatsEntry,
    relayActive := true,
    streamStartTime := some 0 }

/-- C2. The claim states every unexpected worker exit marks the telemetry
series of that destination as ended, regardless of which route spawned the
worker. For a worker spawned by the single-destination start route, the
registered close handler removes the handle but leaves the telemetry
series untouched: at the concrete state with worker a, after the close
event the entry still has ended = false and no end time, so the claim as
stated is false. -/
theorem C2_close_cex :
    (mapGet cexState.relayProcesses "a").isSome = true
    ∧ (cexState.platformStats "a").map PlatformData.ended = some false
    ∧ mapGet (closeHandlerStartOne cexState "a").relayProcesses "a" = none
    ∧ ((closeHandlerStartOne cexState "a").platformStats "a").map PlatformData.ended = some false
    ∧ ((closeHandlerStartOne cexState "a").platformStats "a").map PlatformData.endTime =
        some none := by decide

/-- C2 amended. On an unexpected exit of a worker spawned by the start-all
route, the close handler removes the handle, marks the telemetry series of
that destination as ended with an end time, and clears the relay-wide flag
and start time when it was the last worker. For a worker spawned by the
start-one or restart-one route, the close handler removes the handle and
clears the relay-wide flags when it was the last worker, but does not touch
the telemetry series. -/
theorem C2_close_amended :
    (∀ st id now,
      mapGet (closeHandlerStartAll st id now).relayProcesses id = none
      ∧ (∀ d, st.platformStats id = some d →
          (closeHandlerStartAll st id now).platformStats id =
            some { d with ended := true, endTime := some now })
      ∧ ((mapDelete st.relayProcesses id).length = 0 →
          (closeHandlerStartAll st id now).relayActive = false
          ∧ (closeHandlerStartAll st id now).streamStartTime = none))
    ∧ (∀ st id,
      mapGet (closeHandlerStartOne st id).relayProcesses id = none
      ∧ (closeHandlerStartOne st id).platformStats = st.platformStats
      ∧ ((mapDelete st.relayProcesses id).length = 0 →
          (closeHandlerStartOne st id).relayActive = false
          ∧ (closeHandlerStartOne st id).streamStartTime = none)
      ∧ closeHandlerRestartOne st id = closeHandlerStartOne st id) := by
  constructor
  · intro st id now
    refine ⟨?_, ?_, ?_⟩
    · by_cases hl : (mapDelete st.relayProcesses id).length = 0 <;>
        cases hd : st.platformStats id <;>
        simp [closeHandlerStartAll, hl, hd, mapGet_mapDelete_self]
    · intro d hd
      by_cases hl : (mapDelete st.relayProcesses id).length = 0 <;>
        simp [closeHandlerStartAll, hl, hd, statsSet]
    · intro hl
      simp [closeHandlerStartAll, hl]
  · intro st id
    refine ⟨?_, ?_, ?_, rfl⟩
    · by_cases hl : (mapDelete st.relayProcesses id).length = 0 <;>
        simp [closeHandlerStartOne, hl, mapGet_mapDelete_self]
    · by_cases hl : (mapDelete st.relayProcesses id).length = 0 <;>
        simp [closeHandlerStartOne, hl]
    · intro hl
      simp [closeHandlerStartOne, hl]

/-- C2 amended witness: at the concrete one-worker state, the start-all
close handler marks the series ended with end time 9. -/
theorem C2_close_amended_w :
    (closeHandlerStartAll cexState "a" 9).platformStats "a" =
      some { cexStatsEntry with ended := true, endTime := some 9 } :=
  (C2_close_amended.1 cexState "a" 9).2.1 cexStatsEntry (by decide)

/-! ## Claim C3: spawn failure leaves the destination absent -/

/-- C3. For a destination of the start-all loop whose worker fails to
spawn, the error event only logs, and after the close event that follows a
failed spawn the destination holds no worker handle, while the handles and
telemetry entries of every other destination are exactly as before. -/
theorem C3_spawn_failure (st : RelayState) (p : Platform) (pidFn : String → Nat) (now : Nat) :
    mapGet (spawnFailureStartAll st p pidFn now).relayProcesses p.id = none
    ∧ (∀ k, k ≠ p.id →
        mapGet (spawnFailureStartAll st p pidFn now).relayProcesses k =
          mapGet st.relayProcesses k)
    ∧ (∀ k, k ≠ p.id →
        (spawnFailureStartAll st p pidFn now).platformStats k = st.platformStats k) := by
  refine ⟨?_, ?_, ?_⟩
  · by_cases hl : (mapDelete (mapSet st.relayProcesses p.id
        { pid := pidFn p.id, platform := p.name, rtmpUrl := p.rtmpUrl,
          startTime := now }) p.id).length = 0 <;>
      cases hd : statsSet st.platformStats p.id
          { history := [], current := none, platformName := some p.name,
            ended := false, endTime := none } p.id <;>
      simp [spawnFailureStartAll, closeHandlerStartAll, errorHandler, startAllStep,
        hl, hd, mapGet_mapDelete_self]
  · intro k hk
    by_cases hl : (mapDelete (mapSet st.relayProcesses p.id
        { pid := pidFn p.id, platform := p.name, rtmpUrl := p.rtmpUrl,
          startTime := now }) p.id).length = 0 <;>
      cases hd : statsSet st.platformStats p.id
          { history := [], current := none, platformName := some p.name,
            ended := false, endTime := none } p.id <;>
      simp [spawnFailureStartAll, closeHandlerStartAll, errorHandler, startAllStep,
        hl, hd, mapGet_mapDelete_ne _ _ _ hk, mapGet_mapSet_ne _ _ _ _ hk]
  · intro k hk
    by_cases hl : (mapDelete (mapSet st.relayProcesses p.id
        { pid := pidFn p.id, platform := p.name, rtmpUrl := p.rtmpUrl,
          startTime := now }) p.id).length = 0 <;>
      cases hd : statsSet st.platformStats p.id
          { history := [], current := none, platformName := some p.name,
            ended := false, endTime := none } p.id <;>
      simp [spawnFailureStartAll, closeHandlerStartAll, errorHandler, startAllStep,
        hl, hd, statsSet, hk]

/-- A concrete fresh destination used by the spawn-failure witness. -/
def cexPlatformB : Platform :=
  { id := "b", name := "Beta", rtmpUrl := "rtmp://b.example/app",
    streamKey := some "k2", srtSettings := none, encoding := none }

/-- C3 witness: at the concrete one-worker state, a spawn failure for the
fresh destination b leaves b absent and worker a untouched. -/
theorem C3_spawn_failure_w :
    mapGet (spawnFailureStartAll cexState cexPlatformB (fun _ => 77) 3).relayProcesses
        cexPlatformB.id = none
    ∧ mapGet (spawnFailureStartAll cexState cexPlatformB (fun _ => 77) 3).relayProcesses "a" =
        mapGet cexState.relayProcesses "a" :=
  ⟨(C3_spawn_failure cexState cexPlatformB (fun _ => 77) 3).1,
   (C3_spawn_failure cexState cexPlatformB (fun _ => 77) 3).2.1 "a" (by decide)⟩

/-! ## Claim C4: startAll fails fast and leaves the worker set untouched -/

/-- C4. When the destination fetch throws or answers non-success, or the
fetched list is missing or empty, the relay-start route reports an explicit
error and returns the whole state exactly as it was: no worker stopped, no
worker started. -/
theorem C4_startAll_fail_fast (st : RelayState) (pidFn : String → Nat) (now : Nat) :
    startAll st PlatformsFetch.fetchError pidFn now = (st, .errorResp 500)
    ∧ startAll st PlatformsFetch.notOk pidFn now = (st, .errorResp 500)
    ∧ startAll st (PlatformsFetch.okJson none) pidFn now = (st, .errorResp 400)
    ∧ startAll st (PlatformsFetch.okJson (some [])) pidFn now = (st, .errorResp 400) :=
  ⟨rfl, rfl, rfl, rfl⟩

/-! ## History lemmas for the bounded telemetry series -/

/-- The most recent n elements are never more than n. -/
theorem lastN_length_le (n : Nat) (l : List StatsSample) : (lastN n l).length ≤ n := by
  simp only [lastN, List.length_drop]
  omega

/-- The trim step keeps exactly the most recent MAX_STATS_HISTORY entries. -/
theorem trimHist_eq (h : List StatsSample) : trimHist h = lastN MAX_STATS_HISTORY h := by
  unfold trimHist lastN
  split
  · rfl
  · have hz : h.length - MAX_STATS_HISTORY = 0 := by omega
    simp [hz]

/-- Keeping the most recent n of a list already cut to its most recent n,
after appending, is keeping the most recent n of the whole. -/
theorem lastN_append_left (n : Nat) (a b : List StatsSample) :
    lastN n (lastN n a ++ b) = lastN n (a ++ b) := by
  have key : ∀ (i j : Nat) (x : List StatsSample), i = j → x.drop i = x.drop j := by
    intro i j x h
    rw [h]
  simp only [lastN, List.drop_append_eq_append_drop, List.drop_drop, List.length_append,
    List.length_drop]
  congr 1
  · exact key _ _ _ (by omega)
  · exact key _ _ _ (by omega)

/-- Effect of updatePlatformStats on the history of the touched destination. -/
theorem histOf_update_eq (m : StatsMap) (i : String) (s : FFStats) (n : Nat) :
    histOf (updatePlatformStats m i s n) i =
      match s.bitrate with
      | some b => trimHist (histOf m i ++
          [{ timestamp := n, bitrate := b, fps := s.fps, speed := s.speed }])
      | none => histOf m i := by
  cases hm : m i <;> cases hb : s.bitrate <;>
    simp [updatePlatformStats, histOf, statsSet, hm, hb]

/-- updatePlatformStats leaves the history of every other destination alone. -/
theorem histOf_update_ne (m : StatsMap) (i : String) (s : FFStats) (n : Nat) (id : String)
    (h : id ≠ i) :
    histOf (updatePlatformStats m i s n) id = histOf m id := by
  cases hm : m i <;> cases hb : s.bitrate <;>
    simp [updatePlatformStats, histOf, statsSet, hm, hb, h]

/-- updatePlatformStats overwrites the current slot of the touched destination. -/
theorem curOf_update_eq (m : StatsMap) (i : String) (s : FFStats) (n : Nat) :
    curOf (updatePlatformStats m i s n) i = some (s, n) := by
  cases hm : m i <;> cases hb : s.bitrate <;>
    simp [updatePlatformStats, curOf, statsSet, hm, hb]

/-- The empty line parses to nothing. -/
theorem parse_empty_none : parseFFmpegOutput "" = none := by decide

/-- Effect of one ingest on the history of any destination, phrased through
the sample the event contributes. -/
theorem histOf_ingestLine (m : StatsMap) (ev : String × String × Nat) (id : String) :
    histOf (ingestLine m ev.1 ev.2.1 ev.2.2) id =
      match evSample id ev with
      | some x => trimHist (histOf m id ++ [x])
      | none => histOf m id := by
  obtain ⟨i, l, n⟩ := ev
  by_cases hi : i = id
  · subst hi
    by_cases ht : jsTrim l = ""
    · simp [ingestLine, evSample, ht]
    · cases hp : parseFFmpegOutput (jsTrim l) with
      | none => simp [ingestLine, evSample, ht, hp]
      | some s =>
        cases hb : s.bitrate with
        | none => simp [ingestLine, evSample, ht, hp, hb, histOf_update_eq]
        | some b => simp [ingestLine, evSample, ht, hp, hb, histOf_update_eq]
  · by_cases ht : jsTrim l = ""
    · simp [ingestLine, evSample, ht, hi]
    · cases hp : parseFFmpegOutput (jsTrim l) with
      | none => simp [ingestLine, evSample, ht, hp, hi]
      | some s =>
        simp [ingestLine, evSample, ht, hp, hi,
          histOf_update_ne m i s n id (fun he => hi (he.symm))]

/-- Invariant of the ingest fold: every history equals the most recent
MAX_STATS_HISTORY of everything ever appended for that destination. -/
theorem ingestAll_histOf (evs : List (String × String × Nat)) :
    ∀ (m : StatsMap) (pre : String → List StatsSample),
      (∀ id, histOf m id = lastN MAX_STATS_HISTORY (pre id)) →
      ∀ id, histOf (ingestAll m evs) id =
        lastN MAX_STATS_HISTORY (pre id ++ appendedSamples id evs) := by
  induction evs with
  | nil =>
    intro m pre h id
    simpa [ingestAll, appendedSamples] using h id
  | cons ev evs ih =>
    intro m pre h id
    have hstep : ∀ id2, histOf (ingestLine m ev.1 ev.2.1 ev.2.2) id2 =
        lastN MAX_STATS_HISTORY (pre id2 ++ (evSample id2 ev).toList) := by
      intro id2
      rw [histOf_ingestLine]
      cases hs : evSample id2 ev with
      | none => simpa using h id2
      | some x =>
        simp only [h id2, trimHist_eq]
        rw [lastN_append_left]
        simp
    have heq : ingestAll m (ev :: evs) = ingestAll (ingestLine m ev.1 ev.2.1 ev.2.2) evs := rfl
    have happ : (evSample id ev).toList ++ appendedSamples id evs =
        appendedSamples id (ev :: evs) := by
      cases hs : evSample id ev <;> simp [appendedSamples, List.filterMap_cons, hs]
    rw [heq, ih _ _ hstep id, List.append_assoc, happ]

/-! ## Claim C5: bounded FIFO telemetry history -/

/-- C5. After any sequence of ingested diagnostic lines starting from the
empty stats map, the history of every destination has length at most 3600,
and it is exactly the most recent 3600 of the bitrate-bearing samples
appended for that destination, in append order: the oldest samples are the
ones evicted. -/
theorem C5_history_bound (evs : List (String × String × Nat)) (id : String) :
    (histOf (ingestAll emptyStats evs) id).length ≤ MAX_STATS_HISTORY
    ∧ histOf (ingestAll emptyStats evs) id =
        lastN MAX_STATS_HISTORY (appendedSamples id evs) := by
  have h := ingestAll_histOf evs emptyStats (fun _ => [])
    (fun id2 => by simp [histOf, emptyStats, lastN]) id
  simp only [List.nil_append] at h
  exact ⟨h ▸ lastN_length_le _ _, h⟩

/-! ## Claim C6: parse gating of current slot and history -/

/-- C6. A line with zero extractable fields changes nothing; a line with at
least one extractable field unconditionally overwrites the current slot of
that destination; only a parse carrying a bitrate appends to the bounded
history, so a frame-only line updates the current slot and appends
nothing. -/
theorem C6_parse_gating :
    (∀ m id line now, parseFFmpegOutput (jsTrim line) = none → ingestLine m id line now = m)
    ∧ (∀ m id line now s, parseFFmpegOutput (jsTrim line) = some s →
        curOf (ingestLine m id line now) id = some (s, now)
        ∧ (s.bitrate = none → histOf (ingestLine m id line now) id = histOf m id)
        ∧ (∀ b, s.bitrate = some b →
            histOf (ingestLine m id line now) id =
              trimHist (histOf m id ++
                [{ timestamp := now, bitrate := b, fps := s.fps, speed := s.speed }])))
    ∧ parseFFmpegOutput (jsTrim "frame= 100") =
        some { bitrate := none, fps := none, speed := none, frame := some 100, time := none } := by
  refine ⟨?_, ?_, by decide⟩
  · intro m id line now hp
    by_cases ht : jsTrim line = ""
    · simp [ingestLine, ht]
    · simp [ingestLine, ht, hp]
  · intro m id line now s hp
    have ht : jsTrim line ≠ "" := by
      intro he
      rw [he, parse_empty_none] at hp
      exact Option.noConfusion hp
    refine ⟨?_, ?_, ?_⟩
    · simp [ingestLine, ht, hp, curOf_update_eq]
    · intro hb
      simp [ingestLine, ht, hp, histOf_update_eq, hb]
    · intro b hb
      simp [ingestLine, ht, hp, histOf_update_eq, hb]

/-- C6 witness: ingesting the frame-only line updates the current slot of
destination a and leaves its history empty. -/
theorem C6_parse_gating_w :
    curOf (ingestLine emptyStats "a" "frame= 100" 7) "a" =
      some ({ bitrate := none, fps := none, speed := none, frame := some 100, time := none }, 7)
    ∧ histOf (ingestLine emptyStats "a" "frame= 100" 7) "a" = histOf emptyStats "a" :=
  ⟨(C6_parse_gating.2.1 emptyStats "a" "frame= 100" 7
      { bitrate := none, fps := none, speed := none, frame := some 100, time := none }
      (by decide)).1,
   (C6_parse_gating.2.1 emptyStats "a" "frame= 100" 7
      { bitrate := none, fps := none, speed := none, frame := some 100, time := none }
      (by decide)).2.1 rfl⟩

/-! ## Plan-builder lemmas -/

/-- Both output-target bindings of the source coincide. -/
theorem fullRtmpUrl_eq (p : Platform) : fullRtmpUrlOf p = outputUrlOf p := by
  by_cases h : isSrtOutput p <;> simp [fullRtmpUrlOf, outputUrlOf, h]

/-- A passthrough or absent configuration yields the stream-copy block. -/
theorem encodeArgs_passthrough (p : Platform) (hw : Bool) (hp : isPassthrough p = true) :
    encodeArgs p hw = ["-c", "copy"] := by
  cases he : p.encoding with
  | none => simp [encodeArgs, he]
  | some enc =>
    have hpt : enc.usePassthrough = some true := by
      simpa [isPassthrough, he] using hp
    simp [encodeArgs, he, hpt]

/-- Every element of a passthrough plan is one of the fixed copy-plan
tokens, the input argument or the output target. -/
theorem mem_passthrough_plan (p : Platform) (inputUrl : String) (useNvenc : Bool)
    (hp : isPassthrough p = true) (f : String)
    (hmem : f ∈ buildFFmpegArgs p inputUrl useNvenc) :
    f ∈ ["-hide_banner", "-loglevel", "info", "-stats", "-hwaccel", "cuda",
      "-hwaccel_output_format", "cuda", "-i", "-c", "copy", "-f", "mpegts", "flv",
      inputUrl, outputUrlOf p] := by
  rw [show buildFFmpegArgs p inputUrl useNvenc =
      preArgs inputUrl useNvenc ++ encodeArgs p useNvenc ++ outputArgs p from rfl,
    encodeArgs_passthrough p useNvenc hp] at hmem
  cases useNvenc <;> by_cases hsrt : isSrtOutput p <;>
    simp [preArgs, outputArgs, hsrt, fullRtmpUrl_eq] at hmem <;>
    (simp only [List.mem_cons, List.not_mem_nil, or_false]; tauto)

/-- A segment is a contiguous part of the whole plan when it is one of the
middle encode block. -/
theorem seg_encode_build (p : Platform) (input : String) (hw : Bool) (pat : List String)
    (h : pat <:+: encodeArgs p hw) : pat <:+: buildFFmpegArgs p input hw :=
  h.trans ⟨preArgs input hw, outputArgs p, rfl⟩

/-- The preset directive pair inside the hardware encode block. -/
theorem nvencArgs_preset_seg (enc : Encoding) :
    ["-preset", nvencPresetOf enc] <:+: nvencArgs enc :=
  ⟨["-c:v", "h264_nvenc"],
   ["-tune", "ll", "-rc", "cbr",
    "-b:v", toString (encBitrate enc) ++ "k",
    "-maxrate", toString (encMaxBitrate enc) ++ "k",
    "-bufsize", toString (encBufsize enc) ++ "k",
    "-g", toString (encGopSize enc),
    "-keyint_min", toString (encGopSize enc),
    "-profile:v", encProfile enc,
    "-rc-lookahead", toString (min (encRcLookahead enc) 32),
    "-c:a", "aac",
    "-b:a", toString (encAudioBitrate enc) ++ "k",
    "-ar", "48000"]
    ++ (if truthyStr enc.resolution then ["-vf", "scale_cuda=" ++ enc.resolution.getD ""] else []),
   rfl⟩

/-- The look-ahead directive pair inside the hardware encode block. -/
theorem nvencArgs_la_seg (enc : Encoding) :
    ["-rc-lookahead", toString (min (encRcLookahead enc) 32)] <:+: nvencArgs enc :=
  ⟨["-c:v", "h264_nvenc",
    "-preset", nvencPresetOf enc,
    "-tune", "ll", "-rc", "cbr",
    "-b:v", toString (encBitrate enc) ++ "k",
    "-maxrate", toString (encMaxBitrate enc) ++ "k",
    "-bufsize", toString (encBufsize enc) ++ "k",
    "-g", toString (encGopSize enc),
    "-keyint_min", toString (encGopSize enc),
    "-profile:v", encProfile enc],
   ["-c:a", "aac",
    "-b:a", toString (encAudioBitrate enc) ++ "k",
    "-ar", "48000"]
    ++ (if truthyStr enc.resolution then ["-vf", "scale_cuda=" ++ enc.resolution.getD ""] else []),
   rfl⟩

/-- The preset directive pair inside the software encode block. -/
theorem x264Args_preset_seg (enc : Encoding) :
    ["-preset", encCpuPreset enc] <:+: x264Args enc :=
  ⟨["-c:v", "libx264"],
   ["-b:v", toString (encBitrate enc) ++ "k",
    "-maxrate", toString (encMaxBitrate enc) ++ "k",
    "-bufsize", toString (encBufsize enc) ++ "k",
    "-g", toString (encGopSize enc),
    "-keyint_min", toString (encGopSize enc),
    "-profile:v", encProfile enc,
    "-bf", "2"]
    ++ ((if encUseCbr enc then
          ["-x264-params", "nal-hrd=cbr:force-cfr=1:rc-lookahead=" ++
            toString (min (encRcLookahead enc) 60)]
        else if 0 < encRcLookahead enc then
          ["-x264-params", "rc-lookahead=" ++ toString (min (encRcLookahead enc) 60)]
        else [])
      ++ (["-c:a", "aac",
           "-b:a", toString (encAudioBitrate enc) ++ "k",
           "-ar", "48000"]
        ++ (if truthyStr enc.resolution then ["-vf", "scale=" ++ enc.resolution.getD ""] else []))),
   by simp [x264Args]⟩

/-- The x264 parameter directive pair inside the software encode block,
constant-bitrate case. -/
theorem x264Args_cbr_seg (enc : Encoding) (hc : encUseCbr enc = true) :
    ["-x264-params", "nal-hrd=cbr:force-cfr=1:rc-lookahead=" ++
      toString (min (encRcLookahead enc) 60)] <:+: x264Args enc :=
  ⟨["-c:v", "libx264",
    "-preset", encCpuPreset enc,
    "-b:v", toString (encBitrate enc) ++ "k",
    "-maxrate", toString (encMaxBitrate enc) ++ "k",
    "-bufsize", toString (encBufsize enc) ++ "k",
    "-g", toString (encGopSize enc),
    "-keyint_min", toString (encGopSize enc),
    "-profile:v", encProfile enc,
    "-bf", "2"],
   ["-c:a", "aac",
    "-b:a", toString (encAudioBitrate enc) ++ "k",
    "-ar", "48000"]
    ++ (if truthyStr enc.resolution then ["-vf", "scale=" ++ enc.resolution.getD ""] else []),
   by simp [x264Args, hc]⟩

/-- The x264 parameter directive pair inside the software encode block,
look-ahead-only case. -/
theorem x264Args_la_seg (enc : Encoding) (hc : encUseCbr enc = false)
    (hl : 0 < encRcLookahead enc) :
    ["-x264-params", "rc-lookahead=" ++ toString (min (encRcLookahead enc) 60)] <:+:
      x264Args enc :=
  ⟨["-c:v", "libx264",
    "-preset", encCpuPreset enc,
    "-b:v", toString (encBitrate enc) ++ "k",
    "-maxrate", toString (encMaxBitrate enc) ++ "k",
    "-bufsize", toString (encBufsize enc) ++ "k",
    "-g", toString (encGopSize enc),
    "-keyint_min", toString (encGopSize enc),
    "-profile:v", encProfile enc,
    "-bf", "2"],
   ["-c:a", "aac",
    "-b:a", toString (encAudioBitrate enc) ++ "k",
    "-ar", "48000"]
    ++ (if truthyStr enc.resolution then ["-vf", "scale=" ++ enc.resolution.getD ""] else []),
   by simp [x264Args, hc, hl]⟩

/-- The frame rate derived parameter is always positive. -/
theorem encFramerate_pos (enc : Encoding) : 0 < encFramerate enc := by
  unfold encFramerate jsOrNat
  cases h : enc.framerate with
  | none => simp
  | some k =>
    by_cases hk : k = 0 <;> simp [hk] <;> omega

/-- The look-ahead derived parameter is always positive. -/
theorem encRcLookahead_pos (enc : Encoding) : 0 < encRcLookahead enc := by
  unfold encRcLookahead jsOrNat
  cases h : enc.rcLookahead with
  | none => exact encFramerate_pos enc
  | some n =>
    by_cases hn : n = 0
    · simpa [hn] using encFramerate_pos enc
    · simp [hn]
      omega

/-- The encode block of a re-encoding destination on each path. -/
theorem encodeArgs_reencode (p : Platform) (enc : Encoding) (he : p.encoding = some enc)
    (hpt : enc.usePassthrough ≠ some true) :
    encodeArgs p true = nvencArgs enc ∧ encodeArgs p false = x264Args enc := by
  constructor <;> simp [encodeArgs, he, hpt]

/-! ## Claim C7: passthrough plans carry no re-encode directives -/

/-- The re-encode directive flags of the two encode blocks. -/
def reencodeFlags : List String :=
  ["-c:v", "-preset", "-tune", "-rc", "-b:v", "-maxrate", "-bufsize", "-g",
   "-keyint_min", "-profile:v", "-rc-lookahead", "-bf", "-x264-params", "-vf",
   "-c:a", "-b:a", "-ar"]

/-- C7. For a destination whose configuration is passthrough or absent, the
built plan is exactly the stream-copy plan, and, provided the input and
output targets are not themselves directive flags, no re-encode directive
and no audio transcode directive occurs anywhere in the plan. -/
theorem C7_passthrough_plan (p : Platform) (inputUrl : String) (useNvenc : Bool)
    (hp : isPassthrough p = true)
    (hin : inputUrl ∉ reencodeFlags) (hout : outputUrlOf p ∉ reencodeFlags) :
    buildFFmpegArgs p inputUrl useNvenc =
      preArgs inputUrl useNvenc ++ ["-c", "copy"] ++ outputArgs p
    ∧ ∀ f ∈ reencodeFlags, f ∉ buildFFmpegArgs p inputUrl useNvenc := by
  refine ⟨by simp only [buildFFmpegArgs, encodeArgs_passthrough p useNvenc hp], ?_⟩
  intro f hf hmem
  have h2 := mem_passthrough_plan p inputUrl useNvenc hp f hmem
  simp only [List.mem_cons, List.not_mem_nil, or_false] at h2
  rcases h2 with rfl | rfl | rfl | rfl | rfl | rfl | rfl | rfl | rfl | rfl | rfl | rfl | rfl
    | rfl | rfl | rfl <;>
    first
      | exact absurd hf (by decide)
      | exact hin hf
      | exact hout hf

/-- C7 witness: the passthrough destination b built against a concrete
input keeps the video encoder and audio transcode flags out of its plan. -/
theorem C7_passthrough_plan_w :
    "-c:v" ∉ buildFFmpegArgs cexPlatformB "rtmp://mediamtx:1935/live/stream" true
    ∧ "-c:a" ∉ buildFFmpegArgs cexPlatformB "rtmp://mediamtx:1935/live/stream" true :=
  ⟨(C7_passthrough_plan cexPlatformB "rtmp://mediamtx:1935/live/stream" true
      (by decide) (by decide) (by decide)).2 "-c:v" (by decide),
   (C7_passthrough_plan cexPlatformB "rtmp://mediamtx:1935/live/stream" true
      (by decide) (by decide) (by decide)).2 "-c:a" (by decide)⟩

/-! ## Claim C8: preset translation -/

/-- C8. The translation table lists seven hardware levels; the requested
preset fast translates to the fifth level and an unrecognised preset name
defaults to the fourth; on the hardware path the plan carries the
translated preset, and on the software path the plan carries the
originally-named preset unchanged. -/
theorem C8_preset_translation :
    (nvencLevels = ["p1", "p2", "p3", "p4", "p5", "p6", "p7"]
      ∧ nvencPresetMap.lookup "fast" = nvencLevels[4]?
      ∧ ∀ u, nvencPresetMap.lookup u = none →
          (nvencPresetMap.lookup u).getD "p4" = nvencLevels.getD 3 "")
    ∧ (∀ p enc input, p.encoding = some enc → enc.usePassthrough ≠ some true →
        encCpuPreset enc = "fast" →
        ["-preset", "p5"] <:+: buildFFmpegArgs p input true)
    ∧ (∀ p enc input, p.encoding = some enc → enc.usePassthrough ≠ some true →
        nvencPresetMap.lookup (encCpuPreset enc) = none →
        ["-preset", "p4"] <:+: buildFFmpegArgs p input true)
    ∧ (∀ p enc input, p.encoding = some enc → enc.usePassthrough ≠ some true →
        ["-preset", encCpuPreset enc] <:+: buildFFmpegArgs p input false)
    ∧ (∀ enc s, enc.preset = some s → s ≠ "" → encCpuPreset enc = s) := by
  refine ⟨⟨by decide, by decide, ?_⟩, ?_, ?_, ?_, ?_⟩
  · intro u h
    rw [h]
    decide
  · intro p enc input he hpt hpre
    have hP : nvencPresetOf enc = "p5" := by
      show (nvencPresetMap.lookup (encCpuPreset enc)).getD "p4" = "p5"
      rw [hpre]
      decide
    have h1 := nvencArgs_preset_seg enc
    rw [hP] at h1
    exact seg_encode_build p input true _ ((encodeArgs_reencode p enc he hpt).1 ▸ h1)
  · intro p enc input he hpt hnone
    have hP : nvencPresetOf enc = "p4" := by
      show (nvencPresetMap.lookup (encCpuPreset enc)).getD "p4" = "p4"
      rw [hnone]
      rfl
    have h1 := nvencArgs_preset_seg enc
    rw [hP] at h1
    exact seg_encode_build p input true _ ((encodeArgs_reencode p enc he hpt).1 ▸ h1)
  · intro p enc input he hpt
    exact seg_encode_build p input false _
      ((encodeArgs_reencode p enc he hpt).2 ▸ x264Args_preset_seg enc)
  · intro enc s hs hne
    simp [encCpuPreset, jsOrStr, hs, hne]

/-- A concrete re-encoding configuration used by the plan witnesses. -/
def cexEncoding : Encoding :=
  { usePassthrough := none, bitrate := some 6000, maxBitrate := none, bufsize := none,
    audioBitrate := none, preset := some "fast", framerate := some 30, cbr := none,
    rcLookahead := none, keyframeInterval := none, profile := none,
    resolution := some "1280x720" }

/-- A concrete re-encoding destination used by the plan witnesses. -/
def cexPlatformE : Platform :=
  { id := "c", name := "Gamma", rtmpUrl := "rtmp://c.example/app", streamKey := some "k3",
    srtSettings := none, encoding := some cexEncoding }

/-- C8 witness: the concrete destination requesting preset fast gets the
fifth-level hardware preset in its hardware plan. -/
theorem C8_preset_translation_w :
    ["-preset", "p5"] <:+: buildFFmpegArgs cexPlatformE "rtmp://in" true :=
  C8_preset_translation.2.1 cexPlatformE cexEncoding "rtmp://in" rfl (by decide) (by decide)

/-! ## Claim C9: software CBR and look-ahead directives -/

/-- C9. For a re-encoding destination on the software path, constant
bitrate yields the CBR-forcing x264 parameter directive bundling the
look-ahead bounded to 60; otherwise the look-ahead-only directive appears
exactly when the look-ahead is positive, which it always is; the hardware
path instead bounds the look-ahead to 32. -/
theorem C9_software_cbr (p : Platform) (enc : Encoding) (input : String)
    (he : p.encoding = some enc) (hpt : enc.usePassthrough ≠ some true) :
    (encUseCbr enc = true →
      ["-x264-params", "nal-hrd=cbr:force-cfr=1:rc-lookahead=" ++
        toString (min (encRcLookahead enc) 60)] <:+: buildFFmpegArgs p input false)
    ∧ (encUseCbr enc = false → 0 < encRcLookahead enc →
      ["-x264-params", "rc-lookahead=" ++ toString (min (encRcLookahead enc) 60)] <:+:
        buildFFmpegArgs p input false)
    ∧ ["-rc-lookahead", toString (min (encRcLookahead enc) 32)] <:+:
        buildFFmpegArgs p input true
    ∧ 0 < encRcLookahead enc := by
  refine ⟨?_, ?_, ?_, encRcLookahead_pos enc⟩
  · intro hc
    exact seg_encode_build p input false _
      ((encodeArgs_reencode p enc he hpt).2 ▸ x264Args_cbr_seg enc hc)
  · intro hc hl
    exact seg_encode_build p input false _
      ((encodeArgs_reencode p enc he hpt).2 ▸ x264Args_la_seg enc hc hl)
  · exact seg_encode_build p input true _
      ((encodeArgs_reencode p enc he hpt).1 ▸ nvencArgs_la_seg enc)

/-- C9 witness: the concrete re-encoding destination defaults to constant
bitrate, and its software plan carries the CBR-forcing directive with the
look-ahead bounded to 30 (the frame-rate default, under the bound of 60). -/
theorem C9_software_cbr_w :
    ["-x264-params", "nal-hrd=cbr:force-cfr=1:rc-lookahead=" ++
      toString (min (encRcLookahead cexEncoding) 60)] <:+:
      buildFFmpegArgs cexPlatformE "rtmp://in" false :=
  (C9_software_cbr cexPlatformE cexEncoding "rtmp://in" rfl (by decide)).1 (by decide)

/-! ## Claim C10: hardware acceleration flags precede the input even under passthrough -/

/-- C10. When the hardware encoder is selected, the plan of every
destination opens with the fixed flags, the CUDA hardware-acceleration
flags and the input argument, in that order, before anything else; and for
a passthrough destination the hardware plan differs from the software
plan. -/
theorem C10_hwaccel_passthrough (p : Platform) (input : String) :
    buildFFmpegArgs p input true =
      ["-hide_banner", "-loglevel", "info", "-stats", "-hwaccel", "cuda",
        "-hwaccel_output_format", "cuda", "-i", input]
      ++ encodeArgs p true ++ outputArgs p
    ∧ (isPassthrough p = true →
        buildFFmpegArgs p input true ≠ buildFFmpegArgs p input false) := by
  constructor
  · simp [buildFFmpegArgs, preArgs]
  · intro hp hcontra
    have hlen := congrArg List.length hcontra
    have h1 := encodeArgs_passthrough p true hp
    have h2 := encodeArgs_passthrough p false hp
    by_cases hsrt : isSrtOutput p <;>
      simp [buildFFmpegArgs, preArgs, h1, h2, outputArgs, hsrt] at hlen

/-- C10 witness: for the concrete passthrough destination b, the hardware
and software plans differ. -/
theorem C10_hwaccel_passthrough_w :
    buildFFmpegArgs cexPlatformB "rtmp://in" true ≠
      buildFFmpegArgs cexPlatformB "rtmp://in" false :=
  (C10_hwaccel_passthrough cexPlatformB "rtmp://in").2 (by decide)
